import Mathlib

/-!
Verification development for the Visformer backbone
(`src/models/visformer2.py`).

The Python source is shallowly embedded below:

* the relative-position index precomputation of `WindowAttention.__init__`
  (lines 139-149) becomes integer arithmetic over `ℤ`;
* the qk scaling of lines 151-152 and 169 becomes real arithmetic with `rpow`;
* the drop-path schedule `np.linspace(0, drop_path_rate, sum(depth))`
  (line 298) becomes a list of rationals;
* construction-time validation and the tensor-shape bookkeeping of a forward
  pass become `Option`-valued functions over a shape type `TShape`
  (shape errors are `none`);
* the value-level head (lines 446-451) is embedded over `ℚ`-valued tensors.
-/

set_option maxHeartbeats 1600000

/-! ## Relative position index (WindowAttention.__init__, lines 139-149)

`coords = ops.stack(ops.meshgrid((coords_h, coords_w)))` uses MindSpore's
default `xy` indexing for `meshgrid`, so the stacked coordinate tensor has
shape `(2, W, H)` whose first channel at flattened position `p` is `p % H`
(a value below `H = window_size[0]`) and whose second channel is `p / H`
(a value below `W = window_size[1]`).  For every window actually built by
this model `H = W` (`to_2tuple` of a scalar), where both indexing
conventions agree up to relabelling of positions. -/

/-- First channel of the flattened meshgrid coordinates: value in `[0, H)`. -/
def coordFlat0 (H p : ℕ) : ℤ := ((p % H : ℕ) : ℤ)

/-- Second channel of the flattened meshgrid coordinates: value in `[0, W)`. -/
def coordFlat1 (H p : ℕ) : ℤ := ((p / H : ℕ) : ℤ)

/-- One entry of the precomputed relative-position index: difference of
coordinates, shifted by `H-1` resp. `W-1`, combined with stride `2W-1`
(lines 143-148 of the source). -/
def relPosIndexEntry (H W p q : ℕ) : ℤ :=
  (coordFlat0 H p - coordFlat0 H q + ((H : ℤ) - 1)) * (2 * (W : ℤ) - 1)
    + (coordFlat1 H p - coordFlat1 H q + ((W : ℤ) - 1))

/-- `self.relative_position_index`: an `(H*W) × (H*W)` integer matrix. -/
def relativePositionIndex (H W : ℕ) : Matrix (Fin (H * W)) (Fin (H * W)) ℤ :=
  fun p q => relPosIndexEntry H W p.val q.val

/-! ## Attention scaling (lines 151-152 and 169) -/

/-- `qk_scale if qk_scale is not None else -0.25` (line 151). -/
def qkScaleExponent (qk_scale : Option ℚ) : ℚ := qk_scale.getD (-0.25)

/-- `self.scale = self.head_dim ** qk_scale_factor` (line 152). -/
noncomputable def attnScale (head_dim : ℕ) (qk_scale : Option ℚ) : ℝ :=
  (head_dim : ℝ) ^ ((qkScaleExponent qk_scale : ℚ) : ℝ)

/-- One attention logit `matmul(q * self.scale, k.T * self.scale)` (line 169):
the dot product over the head dimension with both factors pre-scaled. -/
def attnLogits {R : Type} [CommRing R] (n : ℕ) (s : R) (q ky : Fin n → R) : R :=
  ∑ i : Fin n, (q i * s) * (ky i * s)

/-! ## Drop-path schedule (line 298) -/

/-- `np.linspace(start, stop, num)` over exact rationals. -/
def npLinspace (start stop : ℚ) (num : ℕ) : List ℚ :=
  if num = 0 then []
  else if num = 1 then [start]
  else (List.range num).map (fun (i : ℕ) => start + (stop - start) * (i : ℚ) / ((num : ℚ) - 1))

/-- `dpr = np.linspace(0, drop_path_rate, sum(depth)).tolist()` (line 298). -/
def dropPathSchedule (depth : List ℕ) (drop_path_rate : ℚ) : List ℚ :=
  npLinspace 0 drop_path_rate depth.sum

/-! ## Window clamping in Block.__init__ (lines 211-213) -/

/-- Effective window size stored by a `Block`:
`if min(input_resolution) <= window_size: window_size = min(input_resolution)`. -/
def effWindow (input_resolution : ℕ × ℕ) (window_size : ℕ) : ℕ :=
  if min input_resolution.1 input_resolution.2 ≤ window_size then
    min input_resolution.1 input_resolution.2
  else window_size

/-- Effective shift size stored by a `Block`:
zeroed exactly when the window is clamped (line 212). -/
def effShift (input_resolution : ℕ × ℕ) (window_size shift_size : ℕ) : ℕ :=
  if min input_resolution.1 input_resolution.2 ≤ window_size then 0
  else shift_size

/-! ## Block forward (lines 226-230), abstract over the submodules -/

/-- The sub-cells owned by a `Block` plus the `attn_disabled` flag. -/
structure BlockCell (T : Type) where
  attn_disabled : Bool
  drop_path : T → T
  norm1 : T → T
  attn : T → T
  norm2 : T → T
  mlp : T → T

/-- `Block.construct` (lines 226-230): an optional attention residual branch,
then the MLP residual branch on the updated tensor. -/
def blockCellForward {T : Type} [Add T] (b : BlockCell T) (x : T) : T :=
  let x1 := if b.attn_disabled then x else x + b.drop_path (b.attn (b.norm1 x))
  x1 + b.drop_path (b.mlp (b.norm2 x1))

/-- A constructed `Block`: stored geometry fields (lines 207-213) plus the
sub-cells.  `shift_size` is recorded but never consumed by the forward pass. -/
structure BlockModule (T : Type) where
  input_resolution : ℕ × ℕ
  window_size : ℕ
  shift_size : ℕ
  cell : BlockCell T

/-- `Block.__init__` (lines 204-224): clamp the window, zero the shift when
clamping, and build the attention sub-cell from the *clamped* window size
(line 218 passes `to_2tuple(self.window_size)`; `shift_size` is passed to no
sub-module). -/
def mkBlock {T : Type} (input_resolution : ℕ × ℕ) (window_size shift_size : ℕ)
    (attn_disabled : Bool) (attnOfWindow : ℕ → T → T)
    (drop_path norm1 norm2 mlp : T → T) : BlockModule T :=
  ⟨input_resolution,
   effWindow input_resolution window_size,
   effShift input_resolution window_size shift_size,
   ⟨attn_disabled, drop_path, norm1, attnOfWindow (effWindow input_resolution window_size),
    norm2, mlp⟩⟩

/-- `Block.construct` of a constructed block. -/
def blockModuleForward {T : Type} [Add T] (b : BlockModule T) (x : T) : T :=
  blockCellForward b.cell x

/-! ## Mlp hidden-width policy (lines 74-84) and the caller side (line 222) -/

/-- Lines 74-84 of `Mlp.__init__`.  `hidden_features or in_features` is
Python's falsy-or: `none` and `some 0` both fall back to `in_features`;
the spatial-conv branch then overwrites the hidden width. -/
def mlpHiddenFeatures (in_features : ℕ) (hidden_features : Option ℕ)
    (group : ℕ) (spatial_conv : Bool) : ℕ :=
  let hf := match hidden_features with
    | none => in_features
    | some v => if v = 0 then in_features else v
  if spatial_conv then
    (if group < 2 then in_features * 5 / 6 else in_features * 2)
  else hf

/-- `mlp_hidden_dim = int(dim * mlp_ratio)` (line 222): `Block` always passes
this value as `hidden_features`.  `int()` truncates toward zero, so the
value is the truncated quotient of the exact rational
`dim * mlp_ratio = dim * num / den`. -/
def blockMlpHidden (dim : ℕ) (mlp_ratio : ℚ) : ℕ :=
  (Int.tdiv ((dim : ℤ) * mlp_ratio.num) (mlp_ratio.den : ℤ)).toNat

/-! ## Head of the network at value level (lines 446-451) over `ℚ` tensors.

A feature map is a function `batch → channel → row → col → ℚ`. -/

/-- `GlobalAvgPooling`: mean over the two spatial axes. -/
def globalAvgPooling (H W : ℕ) (x : ℕ → ℕ → ℕ → ℕ → ℚ) : ℕ → ℕ → ℚ :=
  fun n c => (∑ i ∈ Finset.range H, ∑ j ∈ Finset.range W, x n c i j) / ((H : ℚ) * W)

/-- `x[:, :, 0, 0]` (line 450): the top-left spatial position. -/
def topLeftFeature (x : ℕ → ℕ → ℕ → ℕ → ℚ) : ℕ → ℕ → ℚ := fun n c => x n c 0 0

/-- `nn.Dense` applied to a `(batch, C)` tensor: `x @ weight.T + bias`. -/
def denseLayer (C : ℕ) (weight : ℕ → ℕ → ℚ) (bias : ℕ → ℚ)
    (v : ℕ → ℕ → ℚ) : ℕ → ℕ → ℚ :=
  fun n j => (∑ c ∈ Finset.range C, weight j c * v n c) + bias j

/-- Lines 447-451: pooled (or top-left) features fed to the classifier. -/
def visformerHead (pool : Bool) (H W C : ℕ) (weight : ℕ → ℕ → ℚ) (bias : ℕ → ℚ)
    (x : ℕ → ℕ → ℕ → ℕ → ℚ) : ℕ → ℕ → ℚ :=
  denseLayer C weight bias (if pool then globalAvgPooling H W x else topLeftFeature x)

/-! ## Shape-level model of construction and forward pass

A feature map shape `(batch, channels, height, width)`.  Every operation
that can fail at runtime (channel mismatch, too-small spatial extent,
illegal broadcast, reshape that cannot infer `-1`) returns `none`; MindSpore
raises an error there.  Construction-time validation (positive channel
counts, group divisibility, indexing into the per-stage configuration
lists) is modelled by `visformerConstruct` returning `none`. -/

structure TShape where
  n : ℕ
  c : ℕ
  h : ℕ
  w : ℕ
deriving DecidableEq

/-- Output shape of `nn.Conv2d(cin, cout, k, stride, pad_mode='pad', padding=pad)`:
requires matching input channels and a kernel that fits the padded input;
output spatial size is `(d + 2*pad - k) / stride + 1`. -/
def conv2dShape (cin cout k stride pad : ℕ) (s : TShape) : Option TShape :=
  if s.c = cin ∧ k ≤ s.h + 2 * pad ∧ k ≤ s.w + 2 * pad then
    some ⟨s.n, cout, (s.h + 2 * pad - k) / stride + 1, (s.w + 2 * pad - k) / stride + 1⟩
  else none

/-- `BatchNorm` (`nn.BatchNorm2d(dim)`): shape-preserving, channel-checked. -/
def bnShape (dim : ℕ) (s : TShape) : Option TShape :=
  if s.c = dim then some s else none

/-- Broadcast of one dimension: equal sizes, or one of them is `1`. -/
def bdim (a b : ℕ) : Option ℕ :=
  if a = b then some a else if a = 1 then some b else if b = 1 then some a else none

/-- Broadcast addition of two rank-4 tensors. -/
def bcastAdd (s t : TShape) : Option TShape :=
  (bdim s.n t.n).bind fun n =>
  (bdim s.c t.c).bind fun c =>
  (bdim s.h t.h).bind fun h =>
  (bdim s.w t.w).bind fun w =>
  some ⟨n, c, h, w⟩

/-- Matrix product of the two trailing axes. -/
def matmulShape (a b : ℕ × ℕ) : Option (ℕ × ℕ) :=
  if a.2 = b.1 then some (a.1, b.2) else none

/-- Broadcast of the two trailing axes. -/
def bcastMat (a b : ℕ × ℕ) : Option (ℕ × ℕ) :=
  (bdim a.1 b.1).bind fun x =>
  (bdim a.2 b.2).bind fun y =>
  some (x, y)

/-- `WindowAttention.construct` (lines 162-181) at shape level.  The `qkv`
1×1 convolution yields `3*num_heads*head_dim` channels, reshaped and split
into `q, k, v` of shape `(B, num_heads, H*W, head_dim)`; the logits matmul,
the broadcast addition of the `(1, num_heads, win², win²)` relative-position
bias, and the value matmul follow; the result is reshaped back via `-1`
(requiring a positive, divisible element count — line 178) and projected to
`dim` channels. -/
def windowAttentionShape (dim num_heads head_dim win : ℕ) (s : TShape) :
    Option TShape :=
  (conv2dShape dim (head_dim * num_heads * 3) 1 1 0 s).bind fun s1 =>
  (matmulShape (s1.h * s1.w, head_dim) (head_dim, s1.h * s1.w)).bind fun a1 =>
  (bcastMat a1 (win * win, win * win)).bind fun a2 =>
  (matmulShape a2 (s1.h * s1.w, head_dim)).bind fun a3 =>
  if 1 ≤ s1.n ∧ 1 ≤ s1.h * s1.w ∧
      (s1.n * num_heads * a3.1 * a3.2) % (s1.n * (s1.h * s1.w)) = 0 then
    conv2dShape (head_dim * num_heads) dim 1 1 0
      ⟨s1.n, s1.n * num_heads * a3.1 * a3.2 / (s1.n * (s1.h * s1.w)), s1.h, s1.w⟩
  else none

/-- `Mlp.construct` (lines 94-105) at shape level: 1×1 expansion, optional
grouped 3×3 spatial convolution, 1×1 projection. -/
def mlpShape (in_features hidden_features out_features : ℕ) (spatial_conv : Bool)
    (s : TShape) : Option TShape :=
  (conv2dShape in_features hidden_features 1 1 0 s).bind fun s2 =>
  (if spatial_conv then conv2dShape hidden_features hidden_features 3 1 1 s2
   else some s2).bind fun s3 =>
  conv2dShape hidden_features out_features 1 1 0 s3

/-- Everything about one stage that the shape-level forward pass needs;
produced by construction. -/
structure StagePlan where
  cin : ℕ
  dim : ℕ
  blocks : ℕ
  win : ℕ
  attn_on : Bool
  num_heads : ℕ
  head_dim : ℕ
  hidden : ℕ
  group : ℕ
  spatial : Bool
  posH : ℕ
deriving DecidableEq

/-- `Block.construct` (lines 226-230) at shape level. -/
def blockShape (st : StagePlan) (s : TShape) : Option TShape :=
  (if st.attn_on then
      (bnShape st.dim s).bind fun t1 =>
      (windowAttentionShape st.dim st.num_heads st.head_dim st.win t1).bind fun t2 =>
      bcastAdd s t2
    else some s).bind fun s1 =>
  (bnShape st.dim s1).bind fun t3 =>
  (mlpShape st.dim st.hidden st.dim st.spatial t3).bind fun t4 =>
  bcastAdd s1 t4

/-- Sequential application of the stage's blocks. -/
def stageBlocks (st : StagePlan) : ℕ → TShape → Option TShape
  | 0, s => some s
  | nb + 1, s => (blockShape st s).bind (stageBlocks st nb)

/-- One stage of `Visformer.construct`: patch embedding (2×2 stride-2
convolution), optional positional-embedding broadcast add, then the blocks. -/
def stageForward (pos_embed : Bool) (st : StagePlan) (s : TShape) : Option TShape :=
  (conv2dShape st.cin st.dim 2 2 0 s).bind fun s2 =>
  (if pos_embed then bcastAdd s2 ⟨1, st.dim, st.posH, st.posH⟩ else some s2).bind fun s3 =>
  stageBlocks st st.blocks s3

/-- The data produced by a successful construction. -/
structure Plan where
  init_channels : ℕ
  stages : List StagePlan
  pos_embed : Bool
  embed_dim : ℕ
  num_classes : ℕ
  pool : Bool
deriving DecidableEq

/-- `Visformer.construct` (lines 410-452) at shape level: stem (7×7 stride-2
convolution + norm + ReLU), the four stages, final norm, pooling (or the
top-left pixel when pooling is disabled), flatten, classifier. -/
def forwardShape (p : Plan) (x : TShape) : Option (ℕ × ℕ) :=
  (conv2dShape 3 p.init_channels 7 2 3 x).bind fun s1 =>
  (bnShape p.init_channels s1).bind fun s2 =>
  (p.stages.foldlM (fun s st => stageForward p.pos_embed st s) s2).bind fun s3 =>
  (bnShape (p.embed_dim * 2) s3).bind fun s4 =>
  (if p.pool then some (s4.n, s4.c)
   else if 1 ≤ s4.h ∧ 1 ≤ s4.w then some (s4.n, s4.c) else none).bind fun v =>
  if v.2 = p.embed_dim * 2 then some (v.1, p.num_classes) else none

/-- `num_heads` may be a scalar or a per-stage list (lines 294-295). -/
inductive NumHeads where
  | scalar (nh : ℕ)
  | list (l : List ℕ)
deriving DecidableEq

/-- Scalar head counts are broadcast to all four stages (lines 294-295). -/
def numHeadsList (nh : NumHeads) : List ℕ :=
  match nh with
  | .scalar s => List.replicate 4 s
  | .list l => l

/-- The constructor arguments of `Visformer` that the claims quantify over
(dropout rates and weight initialisation do not affect construction success
or shapes and are omitted). -/
structure VisformerCfg where
  img_size : ℕ
  init_channels : ℕ
  num_classes : ℕ
  embed_dim : ℕ
  depth : List ℕ
  num_heads : NumHeads
  mlp_ratio : ℚ
  attn_stage : List Char
  spatial_conv : List Char
  group : ℕ
  pool : Bool
  pos_embed : Bool
deriving DecidableEq

/-- `head_dim = int(dim // num_heads * head_dim_ratio)` (line 134) with the
per-stage ratios 0.25, 0.5, 1.0, 1.0 given as a divisor 4, 2, 1, 1
(division by a power of two is exact in floating point, `int` truncates). -/
def headDimOf (dim num_heads ratio_den : ℕ) : ℕ := dim / num_heads / ratio_den

/-- Construction of the blocks of one stage.  If the stage is empty the
per-stage configuration entries are never read (the Python list
comprehension never evaluates the `Block(...)` call).  Otherwise the
stage-flag characters are read (an out-of-range access raises `IndexError`,
modelled by `none`), `attn_disabled = (attn_stage[j] == '0')` and
`spatial_conv = (spatial_conv[j] == '1')`, and the sub-module constructors
validate: positive `qkv`/`proj` channel counts when attention is enabled
(`num_heads ≥ 1` is also needed by the `dim // num_heads` division), a
positive MLP hidden width, and group-divisibility of the grouped 3×3
convolution when spatial conv is enabled. -/
def buildStage (d cin dim preset img group ratio_den : ℕ) (mlp_ratio : ℚ)
    (nh? : Option ℕ) (aC? sC? : Option Char) : Option StagePlan :=
  if d = 0 then
    some ⟨cin, dim, 0, effWindow (img, img) preset, false, 0, 0, 0, group, false, img⟩
  else
    match nh?, aC?, sC? with
    | some nh, some aC, some sC =>
      if ((aC != '0') = true → 1 ≤ nh ∧ 1 ≤ headDimOf dim nh ratio_den) ∧
          1 ≤ mlpHiddenFeatures dim (some (blockMlpHidden dim mlp_ratio)) group (sC == '1') ∧
          1 ≤ dim ∧
          ((sC == '1') = true → 1 ≤ group ∧
            mlpHiddenFeatures dim (some (blockMlpHidden dim mlp_ratio)) group (sC == '1')
              % group = 0) then
        some ⟨cin, dim, d, effWindow (img, img) preset, aC != '0', nh,
          headDimOf dim nh ratio_den,
          mlpHiddenFeatures dim (some (blockMlpHidden dim mlp_ratio)) group (sC == '1'),
          group, sC == '1', img⟩
      else none
    | _, _, _ => none

/-- `Visformer.__init__` (lines 285-387) at shape level.  The `assert`
demands a 4-element depth sequence; a scalar `num_heads` is broadcast;
the stem and patch embeddings need positive channel counts (`embed_dim//4`
is the smallest); resolution is halved by the stem and by each patch
embedding; the per-stage window presets are 56, 28, 14, 7 and the head-dim
ratio divisors 4, 2, 1, 1; the head needs a positive class count. -/
def visformerConstruct (cfg : VisformerCfg) : Option Plan :=
  if cfg.depth.length = 4 ∧ 1 ≤ cfg.init_channels ∧ 1 ≤ cfg.num_classes ∧
      1 ≤ cfg.embed_dim / 4 then
    (buildStage (cfg.depth.getD 0 0) cfg.init_channels (cfg.embed_dim / 4) 56
        (cfg.img_size / 2 / 2) cfg.group 4 cfg.mlp_ratio
        (numHeadsList cfg.num_heads)[0]? cfg.attn_stage[0]? cfg.spatial_conv[0]?).bind fun s0 =>
    (buildStage (cfg.depth.getD 1 0) (cfg.embed_dim / 4) (cfg.embed_dim / 2) 28
        (cfg.img_size / 2 / 2 / 2) cfg.group 2 cfg.mlp_ratio
        (numHeadsList cfg.num_heads)[1]? cfg.attn_stage[1]? cfg.spatial_conv[1]?).bind fun s1 =>
    (buildStage (cfg.depth.getD 2 0) (cfg.embed_dim / 2) cfg.embed_dim 14
        (cfg.img_size / 2 / 2 / 2 / 2) cfg.group 1 cfg.mlp_ratio
        (numHeadsList cfg.num_heads)[2]? cfg.attn_stage[2]? cfg.spatial_conv[2]?).bind fun s2 =>
    (buildStage (cfg.depth.getD 3 0) cfg.embed_dim (cfg.embed_dim * 2) 7
        (cfg.img_size / 2 / 2 / 2 / 2 / 2) cfg.group 1 cfg.mlp_ratio
        (numHeadsList cfg.num_heads)[3]? cfg.attn_stage[3]? cfg.spatial_conv[3]?).bind fun s3 =>
    some ⟨cfg.init_channels, [s0, s1, s2, s3], cfg.pos_embed, cfg.embed_dim,
          cfg.num_classes, cfg.pool⟩
  else none

/-- Well-formedness of a stage-flag string in the sense of the spec: four
characters, each `'0'` or `'1'`. -/
def flagsWellFormed (s : List Char) : Prop :=
  s.length = 4 ∧ ∀ c ∈ s, c = '0' ∨ c = '1'

instance : DecidablePred flagsWellFormed := fun s => by
  unfold flagsWellFormed
  infer_instance

/-! # Helper lemmas -/

/-- Entry bounds for the relative-position index. -/
theorem relPosIndexEntry_bounds (H W p q : ℕ) (hH : 1 ≤ H) (hW : 1 ≤ W)
    (hp : p < H * W) (hq : q < H * W) :
    0 ≤ relPosIndexEntry H W p q ∧
      relPosIndexEntry H W p q < (2 * (H : ℤ) - 1) * (2 * (W : ℤ) - 1) := by
  have h1 : p % H < H := Nat.mod_lt _ hH
  have h2 : q % H < H := Nat.mod_lt _ hH
  have h3 : p / H < W := (Nat.div_lt_iff_lt_mul hH).mpr (by rw [Nat.mul_comm W H]; exact hp)
  have h4 : q / H < W := (Nat.div_lt_iff_lt_mul hH).mpr (by rw [Nat.mul_comm W H]; exact hq)
  unfold relPosIndexEntry coordFlat0 coordFlat1
  set a : ℤ := ((p % H : ℕ) : ℤ) with ha
  set b : ℤ := ((q % H : ℕ) : ℤ) with hb
  set c : ℤ := ((p / H : ℕ) : ℤ) with hc
  set d : ℤ := ((q / H : ℕ) : ℤ) with hd
  have ha0 : 0 ≤ a := ha ▸ Int.natCast_nonneg _
  have hb0 : 0 ≤ b := hb ▸ Int.natCast_nonneg _
  have hc0 : 0 ≤ c := hc ▸ Int.natCast_nonneg _
  have hd0 : 0 ≤ d := hd ▸ Int.natCast_nonneg _
  have ha1 : a < (H : ℤ) := by rw [ha]; exact_mod_cast h1
  have hb1 : b < (H : ℤ) := by rw [hb]; exact_mod_cast h2
  have hc1 : c < (W : ℤ) := by rw [hc]; exact_mod_cast h3
  have hd1 : d < (W : ℤ) := by rw [hd]; exact_mod_cast h4
  have u0 : 0 ≤ a - b + ((H : ℤ) - 1) := by omega
  have u1 : a - b + ((H : ℤ) - 1) ≤ 2 * (H : ℤ) - 2 := by omega
  have v0 : 0 ≤ c - d + ((W : ℤ) - 1) := by omega
  have v1 : c - d + ((W : ℤ) - 1) ≤ 2 * (W : ℤ) - 2 := by omega
  have w0 : (0 : ℤ) ≤ 2 * (W : ℤ) - 1 := by omega
  have hmul := mul_le_mul_of_nonneg_right u1 w0
  constructor
  · have := mul_nonneg u0 w0
    linarith
  · nlinarith [hmul, v1]

/-! # Claim theorems -/

/-- C1: for positive `H`, `W` the precomputed relative-position index is an
`(H*W) × (H*W)` integer matrix (shape fixed by its type); its entry at
`(p, q)` is `(dy + (H-1)) * (2W-1) + (dx + (W-1))` where `(dy, dx)` is the
difference of the flattened meshgrid coordinates of `p` and `q`, and every
entry lies in `[0, (2H-1)*(2W-1))`. -/
theorem relative_position_index_spec (H W : ℕ) (hH : 1 ≤ H) (hW : 1 ≤ W)
    (p q : Fin (H * W)) :
    relativePositionIndex H W p q =
      ((coordFlat0 H p.val - coordFlat0 H q.val) + ((H : ℤ) - 1)) * (2 * (W : ℤ) - 1)
        + ((coordFlat1 H p.val - coordFlat1 H q.val) + ((W : ℤ) - 1))
    ∧ 0 ≤ relativePositionIndex H W p q
    ∧ relativePositionIndex H W p q < (2 * (H : ℤ) - 1) * (2 * (W : ℤ) - 1) := by
  refine ⟨rfl, ?_, ?_⟩
  · exact (relPosIndexEntry_bounds H W p.val q.val hH hW p.isLt q.isLt).1
  · exact (relPosIndexEntry_bounds H W p.val q.val hH hW p.isLt q.isLt).2

/-- C1 witness: window `2 × 2`, positions `3` and `0`. -/
theorem relative_position_index_spec_witness :
    1 ≤ 2 ∧ 1 ≤ 2 ∧
      (relativePositionIndex 2 2 ⟨3, by decide⟩ ⟨0, by decide⟩ =
          ((coordFlat0 2 3 - coordFlat0 2 0) + ((2 : ℤ) - 1)) * (2 * (2 : ℤ) - 1)
            + ((coordFlat1 2 3 - coordFlat1 2 0) + ((2 : ℤ) - 1))
        ∧ 0 ≤ relativePositionIndex 2 2 ⟨3, by decide⟩ ⟨0, by decide⟩
        ∧ relativePositionIndex 2 2 ⟨3, by decide⟩ ⟨0, by decide⟩ <
            (2 * (2 : ℤ) - 1) * (2 * (2 : ℤ) - 1)) :=
  ⟨by decide, by decide,
   relative_position_index_spec 2 2 (by decide) (by decide) ⟨3, by decide⟩ ⟨0, by decide⟩⟩

/-- C2: with the default `qk_scale = None`, pre-scaling `Q` and `K` each by
`head_dim ** -0.25` makes every attention logit equal to the conventional
single scaling `head_dim ** -0.5` applied once to the unscaled dot product. -/
theorem attn_scaling_equivalence (head_dim n : ℕ) (hdpos : 0 < head_dim)
    (q ky : Fin n → ℝ) :
    attnLogits n (attnScale head_dim none) q ky
      = ((head_dim : ℝ) ^ ((-1 / 2 : ℝ))) * ∑ i : Fin n, q i * ky i := by
  have hpos : (0 : ℝ) < (head_dim : ℝ) := by exact_mod_cast hdpos
  have hs : attnScale head_dim none * attnScale head_dim none
      = (head_dim : ℝ) ^ ((-1 / 2 : ℝ)) := by
    unfold attnScale qkScaleExponent
    rw [← Real.rpow_add hpos]
    norm_num
  unfold attnLogits
  calc ∑ i : Fin n, (q i * attnScale head_dim none) * (ky i * attnScale head_dim none)
      = ∑ i : Fin n, (attnScale head_dim none * attnScale head_dim none) * (q i * ky i) := by
        refine Finset.sum_congr rfl fun i _ => by ring
    _ = (attnScale head_dim none * attnScale head_dim none) * ∑ i : Fin n, q i * ky i := by
        rw [Finset.mul_sum]
    _ = ((head_dim : ℝ) ^ ((-1 / 2 : ℝ))) * ∑ i : Fin n, q i * ky i := by rw [hs]

/-- C2 witness: `head_dim = 1`, a single coordinate with `q = k = 1`. -/
theorem attn_scaling_equivalence_witness :
    0 < 1 ∧
      attnLogits 1 (attnScale 1 none) (fun _ => (1 : ℝ)) (fun _ => (1 : ℝ))
        = (((1 : ℕ) : ℝ) ^ ((-1 / 2 : ℝ))) * ∑ i : Fin 1, (fun _ => (1 : ℝ)) i * (fun _ => (1 : ℝ)) i :=
  ⟨by decide, attn_scaling_equivalence 1 1 (by decide) (fun _ => (1 : ℝ)) (fun _ => (1 : ℝ))⟩

/-- C4 counterexample: at `depth = [1,0,0,0]` and rate `1` the schedule is
`np.linspace(0, 1, 1) = [0]`: it is not empty although `sum(depth) ≤ 1`, and
its last element is `0`, not the configured rate. -/
theorem dropPathSchedule_claim_counterexample :
    ¬ (((dropPathSchedule [1, 0, 0, 0] 1).length = List.sum [1, 0, 0, 0]
        ∧ List.Chain' (· ≤ ·) (dropPathSchedule [1, 0, 0, 0] 1)
        ∧ (dropPathSchedule [1, 0, 0, 0] 1).head? = some 0
        ∧ (dropPathSchedule [1, 0, 0, 0] 1).getLast? = some 1)
      ∨ (List.sum [1, 0, 0, 0] ≤ 1 ∧ dropPathSchedule [1, 0, 0, 0] 1 = [])) := by
  have hsched : dropPathSchedule [1, 0, 0, 0] 1 = [0] := by decide
  rw [hsched]
  intro h
  rcases h with ⟨_, _, _, hlast⟩ | ⟨_, hemp⟩
  · simp at hlast
  · exact absurd hemp (by simp)

/-- C4 (amended): for any depth list and rate `r ≥ 0` the schedule has length
`sum(depth)` and is non-decreasing; it starts at `0` whenever it is nonempty;
its last element is `r` whenever `sum(depth) ≥ 2`; it is empty exactly when
`sum(depth) = 0` (when `sum(depth) = 1` it is the singleton `[0]`, not the
empty sequence, and its last element is `0` rather than `r`). -/
theorem dropPathSchedule_spec (depth : List ℕ) (r : ℚ) (hr : 0 ≤ r) :
    (dropPathSchedule depth r).length = depth.sum
    ∧ List.Chain' (· ≤ ·) (dropPathSchedule depth r)
    ∧ (1 ≤ depth.sum → (dropPathSchedule depth r)[0]? = some 0)
    ∧ (2 ≤ depth.sum → (dropPathSchedule depth r)[depth.sum - 1]? = some r)
    ∧ (depth.sum = 0 → dropPathSchedule depth r = []) := by
  unfold dropPathSchedule npLinspace
  generalize depth.sum = n
  rcases n with _ | (_ | m)
  · simp
  · simp
  · have hden : (0 : ℚ) < ((m + 2 : ℕ) : ℚ) - 1 := by
      have : (0 : ℚ) ≤ (m : ℚ) := Nat.cast_nonneg m
      push_cast
      linarith
    refine ⟨by simp, ?_, ?_, ?_, by omega⟩
    · rw [if_neg (by omega), if_neg (by omega)]
      rw [List.chain'_map]
      rw [show m + 1 + 1 = Nat.succ (m + 1) from rfl, List.chain'_range_succ]
      intro i hi
      have hnum : (r - 0) * (i : ℚ) ≤ (r - 0) * ((i + 1 : ℕ) : ℚ) := by
        refine mul_le_mul_of_nonneg_left ?_ (by linarith)
        push_cast
        linarith
      have hstep := div_le_div_of_nonneg_right hnum (le_of_lt hden)
      show (0 : ℚ) + (r - 0) * (i : ℚ) / (((m + 1 + 1 : ℕ) : ℚ) - 1)
          ≤ (0 : ℚ) + (r - 0) * ((i.succ : ℕ) : ℚ) / (((m + 1 + 1 : ℕ) : ℚ) - 1)
      push_cast at hstep ⊢
      have hd2 : ((m : ℚ) + 1 + 1 - 1) = (m : ℚ) + 2 - 1 := by ring
      rw [hd2]
      linarith
    · intro _
      rw [if_neg (by omega), if_neg (by omega)]
      rw [List.getElem?_map, List.getElem?_range (by omega : 0 < m + 1 + 1)]
      simp
    · intro _
      rw [if_neg (by omega), if_neg (by omega)]
      rw [show m + 1 + 1 - 1 = m + 1 from rfl]
      rw [List.getElem?_map, List.getElem?_range (by omega : m + 1 < m + 1 + 1)]
      have hval : (0 : ℚ) + (r - 0) * ((m + 1 : ℕ) : ℚ) / (((m + 1 + 1 : ℕ) : ℚ) - 1) = r := by
        have hne : (((m + 1 + 1 : ℕ) : ℚ) - 1) ≠ 0 := by
          push_cast
          intro hz
          have : (0 : ℚ) ≤ (m : ℚ) := Nat.cast_nonneg m
          linarith
        field_simp
      show some ((0 : ℚ) + (r - 0) * ((m + 1 : ℕ) : ℚ) / (((m + 1 + 1 : ℕ) : ℚ) - 1)) = some r
      exact congrArg some hval

/-- C4 witness for the amended schedule property at `depth = [1,1,0,0]`,
`r = 1/2`. -/
theorem dropPathSchedule_spec_witness :
    (0 : ℚ) ≤ 1 / 2 ∧
      ((dropPathSchedule [1, 1, 0, 0] (1 / 2)).length = List.sum [1, 1, 0, 0]
      ∧ List.Chain' (· ≤ ·) (dropPathSchedule [1, 1, 0, 0] (1 / 2))
      ∧ (1 ≤ List.sum [1, 1, 0, 0] → (dropPathSchedule [1, 1, 0, 0] (1 / 2))[0]? = some 0)
      ∧ (2 ≤ List.sum [1, 1, 0, 0] →
          (dropPathSchedule [1, 1, 0, 0] (1 / 2))[List.sum [1, 1, 0, 0] - 1]? = some (1 / 2))
      ∧ (List.sum [1, 1, 0, 0] = 0 → dropPathSchedule [1, 1, 0, 0] (1 / 2) = [])) :=
  ⟨by norm_num, dropPathSchedule_spec [1, 1, 0, 0] (1 / 2) (by norm_num)⟩

/-- C5 counterexample: for the non-square input resolution `(1, 2)` with a
configured window of `3`, the clamp stores `min(input_resolution) = 1` as the
window size, which does not equal the input resolution `(1, 2)`. -/
theorem window_clamp_claim_counterexample :
    min (1, 2).1 (1, 2).2 < 3 ∧
      (effWindow (1, 2) 3, effWindow (1, 2) 3) ≠ ((1 : ℕ), (2 : ℕ)) := by
  decide

/-- C5 (amended): when the configured window exceeds `min(input_resolution)`,
the effective window stored by the block is `min(input_resolution)` in both
dimensions (this equals the input resolution exactly when it is square — the
only case the stage builder produces) and the shift is forced to `0`; every
entry of the resulting `RelativePositionIndex` for the clamped `m × m` window
is a valid row index into the bias table with `(2m-1)*(2m-1)` rows. -/
theorem window_clamp_spec (input_resolution : ℕ × ℕ) (window_size shift_size : ℕ)
    (h : min input_resolution.1 input_resolution.2 < window_size) :
    effWindow input_resolution window_size = min input_resolution.1 input_resolution.2
    ∧ effShift input_resolution window_size shift_size = 0
    ∧ (input_resolution.1 = input_resolution.2 →
        (effWindow input_resolution window_size, effWindow input_resolution window_size)
          = input_resolution)
    ∧ (∀ p q : Fin (effWindow input_resolution window_size
          * effWindow input_resolution window_size),
        0 ≤ relativePositionIndex (effWindow input_resolution window_size)
              (effWindow input_resolution window_size) p q
        ∧ relativePositionIndex (effWindow input_resolution window_size)
              (effWindow input_resolution window_size) p q
            < (2 * ((effWindow input_resolution window_size : ℕ) : ℤ) - 1)
                * (2 * ((effWindow input_resolution window_size : ℕ) : ℤ) - 1)) := by
  have hw : effWindow input_resolution window_size
      = min input_resolution.1 input_resolution.2 := by
    unfold effWindow
    rw [if_pos (le_of_lt h)]
  have hs : effShift input_resolution window_size shift_size = 0 := by
    unfold effShift
    rw [if_pos (le_of_lt h)]
  refine ⟨hw, hs, ?_, ?_⟩
  · intro hsq
    obtain ⟨a, b⟩ := input_resolution
    simp only at hsq
    subst hsq
    rw [hw]
    simp [min_self]
  · intro p q
    by_cases hm : 1 ≤ effWindow input_resolution window_size
    · exact relPosIndexEntry_bounds _ _ p.val q.val hm hm p.isLt q.isLt
    · exfalso
      have hz : effWindow input_resolution window_size = 0 := by omega
      have hsq : effWindow input_resolution window_size
          * effWindow input_resolution window_size = 0 := by rw [hz]
      have hlt := p.isLt
      omega

/-- C5 witness: resolution `(3, 3)`, configured window `5`, shift `2`. -/
theorem window_clamp_spec_witness :
    min (3, 3).1 (3, 3).2 < 5 ∧
      (effWindow (3, 3) 5 = min (3, 3).1 (3, 3).2
      ∧ effShift (3, 3) 5 2 = 0
      ∧ ((3, 3).1 = (3, 3).2 → (effWindow (3, 3) 5, effWindow (3, 3) 5) = (3, 3))
      ∧ (∀ p q : Fin (effWindow (3, 3) 5 * effWindow (3, 3) 5),
          0 ≤ relativePositionIndex (effWindow (3, 3) 5) (effWindow (3, 3) 5) p q
          ∧ relativePositionIndex (effWindow (3, 3) 5) (effWindow (3, 3) 5) p q
              < (2 * ((effWindow (3, 3) 5 : ℕ) : ℤ) - 1)
                  * (2 * ((effWindow (3, 3) 5 : ℕ) : ℤ) - 1))) :=
  ⟨by decide, window_clamp_spec (3, 3) 5 2 (by decide)⟩

/-- C6: with attention enabled the block computes
`y + DropPath(MLP(Norm2 y))` for `y = x + DropPath(Attention(Norm1 x))`
(the MLP branch reads the tensor updated by the attention branch, per the
sequential reassignment in the source); with attention disabled it computes
only `x + DropPath(MLP(Norm2 x))`. -/
theorem block_residual_structure {T : Type} [Add T] (b : BlockCell T) (x : T) :
    (b.attn_disabled = false →
      blockCellForward b x =
        (x + b.drop_path (b.attn (b.norm1 x)))
          + b.drop_path (b.mlp (b.norm2 (x + b.drop_path (b.attn (b.norm1 x))))))
    ∧ (b.attn_disabled = true →
      blockCellForward b x = x + b.drop_path (b.mlp (b.norm2 x))) := by
  constructor <;> intro h <;> simp [blockCellForward, h]

/-- C6 witness: identity submodules over `ℕ`, attention enabled, `x = 1`. -/
theorem block_residual_structure_witness :
    blockCellForward (⟨false, id, id, id, id, id⟩ : BlockCell ℕ) 1 =
      (1 + id (id (id 1))) + id (id (id (1 + id (id (id 1))))) :=
  (block_residual_structure (⟨false, id, id, id, id, id⟩ : BlockCell ℕ) 1).1 rfl

/-- C7: the MLP hidden-width policy — with spatial conv and `group < 2` the
hidden width is `in_features * 5 / 6` (integer division); with spatial conv
and `group ≥ 2` it is `in_features * 2`; without spatial conv it is the
caller-passed positive value, which `Block` passes as
`int(dim * mlp_ratio)`. -/
theorem mlp_hidden_policy :
    (∀ (in_features : ℕ) (hf : Option ℕ) (group : ℕ), group < 2 →
        mlpHiddenFeatures in_features hf group true = in_features * 5 / 6)
    ∧ (∀ (in_features : ℕ) (hf : Option ℕ) (group : ℕ), 2 ≤ group →
        mlpHiddenFeatures in_features hf group true = in_features * 2)
    ∧ (∀ (in_features hv group : ℕ), 1 ≤ hv →
        mlpHiddenFeatures in_features (some hv) group false = hv)
    ∧ (∀ (dim group : ℕ) (mlp_ratio : ℚ), 1 ≤ blockMlpHidden dim mlp_ratio →
        mlpHiddenFeatures dim (some (blockMlpHidden dim mlp_ratio)) group false
          = blockMlpHidden dim mlp_ratio) := by
  refine ⟨?_, ?_, ?_, ?_⟩
  · intro i hf g hg
    unfold mlpHiddenFeatures
    rw [if_pos rfl, if_pos hg]
  · intro i hf g hg
    unfold mlpHiddenFeatures
    rw [if_pos rfl, if_neg (by omega)]
  · intro i hv g hv1
    unfold mlpHiddenFeatures
    rw [if_neg Bool.false_ne_true]
    simp only
    rw [if_neg (by omega)]
  · intro dim g mr hpos
    unfold mlpHiddenFeatures
    rw [if_neg Bool.false_ne_true]
    simp only
    rw [if_neg (by omega)]

/-- C7 witness: `in_features = 12` in all three regimes. -/
theorem mlp_hidden_policy_witness :
    (1 < 2 ∧ mlpHiddenFeatures 12 none 1 true = 12 * 5 / 6)
    ∧ (2 ≤ 8 ∧ mlpHiddenFeatures 12 none 8 true = 12 * 2)
    ∧ (1 ≤ 48 ∧ mlpHiddenFeatures 12 (some 48) 8 false = 48) :=
  ⟨⟨by decide, mlp_hidden_policy.1 12 none 1 (by decide)⟩,
   ⟨by decide, mlp_hidden_policy.2.1 12 none 8 (by decide)⟩,
   ⟨by decide, mlp_hidden_policy.2.2.1 12 48 8 (by decide)⟩⟩

/-- C9: with `pool = False` the classification head reads only the top-left
spatial position `x[:, :, 0, 0]` of the final feature map (two maps agreeing
there produce identical logits); with `pool = True` it reads the global
average pool. -/
theorem head_pool_behavior (H W C : ℕ) (weight : ℕ → ℕ → ℚ) (bias : ℕ → ℚ)
    (x y : ℕ → ℕ → ℕ → ℕ → ℚ) :
    visformerHead false H W C weight bias x = denseLayer C weight bias (topLeftFeature x)
    ∧ visformerHead true H W C weight bias x
        = denseLayer C weight bias (globalAvgPooling H W x)
    ∧ ((∀ n c, x n c 0 0 = y n c 0 0) →
        visformerHead false H W C weight bias x = visformerHead false H W C weight bias y) := by
  refine ⟨rfl, rfl, ?_⟩
  intro hxy
  unfold visformerHead denseLayer topLeftFeature
  rw [if_neg Bool.false_ne_true, if_neg Bool.false_ne_true]
  funext n j
  show (∑ c ∈ Finset.range C, weight j c * x n c 0 0) + bias j
      = (∑ c ∈ Finset.range C, weight j c * y n c 0 0) + bias j
  congr 1
  refine Finset.sum_congr rfl fun c _ => ?_
  rw [hxy n c]

/-- C9 witness: two feature maps that differ away from the top-left position
but agree at it give the same logits with pooling disabled. -/
theorem head_pool_behavior_witness :
    visformerHead false 1 1 1 (fun _ _ => 1) (fun _ => 0) (fun _ _ i _ => (i : ℚ))
      = visformerHead false 1 1 1 (fun _ _ => 1) (fun _ => 0) (fun _ _ _ j => (j : ℚ)) :=
  (head_pool_behavior 1 1 1 (fun _ _ => 1) (fun _ => 0) (fun _ _ i _ => (i : ℚ))
    (fun _ _ _ j => (j : ℚ))).2.2 (fun _ _ => rfl)

/-- C10: two blocks constructed from the same arguments except the
`shift_size` produce identical forward outputs on every input: the stored
shift (zeroed under clamping) is never read by the forward computation, so
the alternating shifts the stage builder passes to odd-indexed blocks have
no effect. -/
theorem block_shift_independence {T : Type} [Add T] (input_resolution : ℕ × ℕ)
    (window_size shift1 shift2 : ℕ) (attn_disabled : Bool) (attnOfWindow : ℕ → T → T)
    (drop_path norm1 norm2 mlp : T → T) (x : T) :
    blockModuleForward
        (mkBlock input_resolution window_size shift1 attn_disabled attnOfWindow
          drop_path norm1 norm2 mlp) x
      = blockModuleForward
          (mkBlock input_resolution window_size shift2 attn_disabled attnOfWindow
            drop_path norm1 norm2 mlp) x := rfl

/-- Broadcast of equal dimensions. -/
theorem bdim_self (a : ℕ) : bdim a a = some a := by
  unfold bdim
  rw [if_pos rfl]

/-- Broadcast against a singleton dimension. -/
theorem bdim_one_right (a : ℕ) : bdim a 1 = some a := by
  unfold bdim
  split_ifs <;> simp_all

/-- Broadcast addition of equal shapes. -/
theorem bcastAdd_self (s : TShape) : bcastAdd s s = some s := by
  unfold bcastAdd
  simp only [bdim_self, Option.some_bind]

/-- BatchNorm on a matching channel count. -/
theorem bnShape_self (dim n h w : ℕ) : bnShape dim ⟨n, dim, h, w⟩ = some ⟨n, dim, h, w⟩ := by
  unfold bnShape
  rw [if_pos rfl]

/-- Evaluation rule for `conv2dShape`. -/
theorem conv2dShape_eval (cin cout k stride pad n c h w a b : ℕ)
    (hci : c = cin) (hh : k ≤ h + 2 * pad) (hw : k ≤ w + 2 * pad)
    (eh : (h + 2 * pad - k) / stride + 1 = a)
    (ew : (w + 2 * pad - k) / stride + 1 = b) :
    conv2dShape cin cout k stride pad ⟨n, c, h, w⟩ = some ⟨n, cout, a, b⟩ := by
  unfold conv2dShape
  rw [if_pos ⟨hci, hh, hw⟩]
  show (some (⟨n, cout, (h + 2 * pad - k) / stride + 1,
      (w + 2 * pad - k) / stride + 1⟩ : TShape) : Option TShape)
      = some (⟨n, cout, a, b⟩ : TShape)
  rw [eh, ew]

/-- Evaluation rule for `matmulShape`. -/
theorem matmulShape_eval (a b c : ℕ) : matmulShape (a, b) (b, c) = some (a, c) := by
  unfold matmulShape
  rw [if_pos rfl]

/-- Broadcast of two equal matrices. -/
theorem bcastMat_self (a b : ℕ) : bcastMat (a, b) (a, b) = some (a, b) := by
  unfold bcastMat
  simp only [bdim_self, Option.some_bind]

/-- On a square `m × m` feature map whose spatial extent matches the window,
window attention is shape-preserving. -/
theorem windowAttentionShape_fixed (dim nh hd N m : ℕ) (hN : 1 ≤ N) (hm : 1 ≤ m) :
    windowAttentionShape dim nh hd m ⟨N, dim, m, m⟩ = some ⟨N, dim, m, m⟩ := by
  have hmm : 0 < m * m := Nat.mul_pos hm hm
  have hNmm : 0 < N * (m * m) := Nat.mul_pos hN hmm
  unfold windowAttentionShape
  rw [conv2dShape_eval dim (hd * nh * 3) 1 1 0 N dim m m m m rfl (by omega) (by omega)
    (by omega) (by omega)]
  simp only [Option.some_bind]
  rw [matmulShape_eval (m * m) hd (m * m)]
  simp only [Option.some_bind]
  rw [bcastMat_self (m * m) (m * m)]
  simp only [Option.some_bind]
  rw [matmulShape_eval (m * m) (m * m) hd]
  simp only [Option.some_bind]
  have hfac : N * nh * (m * m) * hd = nh * hd * (N * (m * m)) := by ring
  have hmod : (N * nh * (m * m) * hd) % (N * (m * m)) = 0 := by
    rw [hfac]
    exact Nat.mul_mod_left _ _
  rw [if_pos ⟨hN, hmm, hmod⟩]
  have hdiv : N * nh * (m * m) * hd / (N * (m * m)) = hd * nh := by
    rw [hfac, Nat.mul_div_cancel _ hNmm, Nat.mul_comm]
  rw [hdiv]
  rw [conv2dShape_eval (hd * nh) dim 1 1 0 N (hd * nh) m m m m rfl (by omega) (by omega)
    (by omega) (by omega)]

/-- The MLP is shape-preserving up to its output channel count. -/
theorem mlpShape_fixed (din hidden dout : ℕ) (sp : Bool) (N m : ℕ) (hm : 1 ≤ m) :
    mlpShape din hidden dout sp ⟨N, din, m, m⟩ = some ⟨N, dout, m, m⟩ := by
  unfold mlpShape
  rw [conv2dShape_eval din hidden 1 1 0 N din m m m m rfl (by omega) (by omega)
    (by omega) (by omega)]
  simp only [Option.some_bind]
  have hmid : (if sp then conv2dShape hidden hidden 3 1 1 ⟨N, hidden, m, m⟩
      else some ⟨N, hidden, m, m⟩) = some ⟨N, hidden, m, m⟩ := by
    cases sp
    · rw [if_neg Bool.false_ne_true]
    · rw [if_pos rfl]
      exact conv2dShape_eval hidden hidden 3 1 1 N hidden m m m m rfl (by omega)
        (by omega) (by omega) (by omega)
  rw [hmid]
  simp only [Option.some_bind]
  exact conv2dShape_eval hidden dout 1 1 0 N hidden m m m m rfl (by omega) (by omega)
    (by omega) (by omega)

/-- A block whose window matches the (square) feature map is shape-preserving. -/
theorem blockShape_fixed (st : StagePlan) (N m : ℕ) (hN : 1 ≤ N) (hm : 1 ≤ m)
    (hwin : st.win = m) :
    blockShape st ⟨N, st.dim, m, m⟩ = some ⟨N, st.dim, m, m⟩ := by
  unfold blockShape
  have hbranch : (if st.attn_on then
        (bnShape st.dim ⟨N, st.dim, m, m⟩).bind fun t1 =>
        (windowAttentionShape st.dim st.num_heads st.head_dim st.win t1).bind fun t2 =>
        bcastAdd ⟨N, st.dim, m, m⟩ t2
      else some ⟨N, st.dim, m, m⟩) = some ⟨N, st.dim, m, m⟩ := by
    cases hao : st.attn_on
    · rw [if_neg Bool.false_ne_true]
    · rw [if_pos rfl]
      rw [bnShape_self]
      simp only [Option.some_bind]
      rw [hwin, windowAttentionShape_fixed st.dim st.num_heads st.head_dim N m hN hm]
      simp only [Option.some_bind]
      exact bcastAdd_self _
  rw [hbranch]
  simp only [Option.some_bind]
  rw [bnShape_self]
  simp only [Option.some_bind]
  rw [mlpShape_fixed st.dim st.hidden st.dim st.spatial N m hm]
  simp only [Option.some_bind]
  exact bcastAdd_self _

/-- Iterating a shape-preserving block. -/
theorem stageBlocks_fixed (st : StagePlan) (s : TShape)
    (hb : blockShape st s = some s) (nb : ℕ) : stageBlocks st nb s = some s := by
  induction nb with
  | zero => rfl
  | succ kk ih =>
    show (blockShape st s).bind (stageBlocks st kk) = some s
    rw [hb]
    simp only [Option.some_bind]
    exact ih

/-- A full stage halves the (even) resolution and moves to the stage width. -/
theorem stageForward_ok (pos_embed : Bool) (st : StagePlan) (N m : ℕ)
    (hN : 1 ≤ N) (hm : 1 ≤ m) (hpos : st.posH = m) (hwin : st.win = m) :
    stageForward pos_embed st ⟨N, st.cin, 2 * m, 2 * m⟩ = some ⟨N, st.dim, m, m⟩ := by
  unfold stageForward
  rw [conv2dShape_eval st.cin st.dim 2 2 0 N st.cin (2 * m) (2 * m) m m rfl (by omega)
    (by omega) (by omega) (by omega)]
  simp only [Option.some_bind]
  have hpe : (if pos_embed then bcastAdd ⟨N, st.dim, m, m⟩ ⟨1, st.dim, st.posH, st.posH⟩
      else some ⟨N, st.dim, m, m⟩) = some ⟨N, st.dim, m, m⟩ := by
    cases pos_embed
    · rw [if_neg Bool.false_ne_true]
    · rw [if_pos rfl, hpos]
      unfold bcastAdd
      simp only [bdim_one_right, bdim_self, Option.some_bind]
  rw [hpe]
  simp only [Option.some_bind]
  exact stageBlocks_fixed st _ (blockShape_fixed st N m hN hm hwin) st.blocks

/-- The clamp applied to a square resolution not exceeding the preset. -/
theorem effWindow_le (r ws : ℕ) (h : r ≤ ws) : effWindow (r, r) ws = r := by
  unfold effWindow
  simp only [min_self]
  rw [if_pos h]

/-- Fields of a successfully built stage plan. -/
theorem buildStage_fields {d cin dim preset img group ratio_den : ℕ} {mlp_ratio : ℚ}
    {nh? : Option ℕ} {aC? sC? : Option Char} {st : StagePlan}
    (h : buildStage d cin dim preset img group ratio_den mlp_ratio nh? aC? sC? = some st) :
    st.cin = cin ∧ st.dim = dim ∧ st.blocks = d ∧
      st.win = effWindow (img, img) preset ∧ st.posH = img := by
  unfold buildStage at h
  split at h
  · rename_i hd0
    subst hd0
    injection h with h
    subst h
    exact ⟨rfl, rfl, rfl, rfl, rfl⟩
  · split at h
    · split at h
      · injection h with h
        subst h
        exact ⟨rfl, rfl, rfl, rfl, rfl⟩
      · exact absurd h (by simp)
    · exact absurd h (by simp)

/-- C3 counterexample: `img_size = 256` is divisible by 32 and the model
constructs successfully (a valid configuration), but the forward pass fails:
at stage 0 the feature map is `64 × 64` while the window stays at the preset
`56` (no clamp since `64 > 56`), so the relative-position bias of shape
`(1, heads, 56², 56²)` cannot be broadcast onto the `(N, heads, 64², 64²)`
logits. -/
theorem forward_shape_claim_counterexample :
    (visformerConstruct ⟨256, 32, 1000, 96, [1, 1, 1, 1], .scalar 6, 4,
        ['1', '1', '1', '1'], ['1', '1', '1', '1'], 8, true, true⟩).isSome = true
    ∧ 256 % 32 = 0
    ∧ (visformerConstruct ⟨256, 32, 1000, 96, [1, 1, 1, 1], .scalar 6, 4,
        ['1', '1', '1', '1'], ['1', '1', '1', '1'], 8, true, true⟩).bind
        (fun p => forwardShape p ⟨1, 3, 256, 256⟩) = none := by
  refine ⟨?_, ?_, ?_⟩ <;> decide

/-- C3 (amended): for every configuration whose construction succeeds and
whose `img_size` is a multiple of 32 **at most 224** (so that each
attention stage's resolution does not exceed its window preset), and every
positive batch size `N`, the forward pass succeeds and produces logits of
shape `(N, num_classes)`. -/
theorem visformer_forward_shape (cfg : VisformerCfg) (p : Plan) (k N : ℕ)
    (hc : visformerConstruct cfg = some p) (himg : cfg.img_size = 32 * k)
    (hk1 : 1 ≤ k) (hk7 : k ≤ 7) (hN : 1 ≤ N) :
    forwardShape p ⟨N, 3, cfg.img_size, cfg.img_size⟩ = some (N, cfg.num_classes) := by
  unfold visformerConstruct at hc
  by_cases hcond : (cfg.depth.length = 4 ∧ 1 ≤ cfg.init_channels ∧ 1 ≤ cfg.num_classes ∧
      1 ≤ cfg.embed_dim / 4)
  case neg =>
    rw [if_neg hcond] at hc
    exact absurd hc (by simp)
  rw [if_pos hcond] at hc
  rcases Option.bind_eq_some.mp hc with ⟨s0, h0, hc⟩
  rcases Option.bind_eq_some.mp hc with ⟨s1, h1, hc⟩
  rcases Option.bind_eq_some.mp hc with ⟨s2, h2, hc⟩
  rcases Option.bind_eq_some.mp hc with ⟨s3, h3, hc⟩
  injection hc with hc
  subst hc
  obtain ⟨hc0, hd0, hb0, hw0, hp0⟩ := buildStage_fields h0
  obtain ⟨hc1, hd1, hb1, hw1, hp1⟩ := buildStage_fields h1
  obtain ⟨hc2, hd2, hb2, hw2, hp2⟩ := buildStage_fields h2
  obtain ⟨hc3, hd3, hb3, hw3, hp3⟩ := buildStage_fields h3
  have e2 : cfg.img_size / 2 / 2 = 8 * k := by omega
  have e3 : cfg.img_size / 2 / 2 / 2 = 4 * k := by omega
  have e4 : cfg.img_size / 2 / 2 / 2 / 2 = 2 * k := by omega
  have e5 : cfg.img_size / 2 / 2 / 2 / 2 / 2 = k := by omega
  rw [e2] at hw0 hp0
  rw [e3] at hw1 hp1
  rw [e4] at hw2 hp2
  rw [e5] at hw3 hp3
  rw [effWindow_le (8 * k) 56 (by omega)] at hw0
  rw [effWindow_le (4 * k) 28 (by omega)] at hw1
  rw [effWindow_le (2 * k) 14 (by omega)] at hw2
  rw [effWindow_le k 7 (by omega)] at hw3
  have st0 := stageForward_ok cfg.pos_embed s0 N (8 * k) hN (by omega) hp0 hw0
  rw [hc0, hd0] at st0
  have st1 := stageForward_ok cfg.pos_embed s1 N (4 * k) hN (by omega) hp1 hw1
  rw [hc1, hd1, (by omega : 2 * (4 * k) = 8 * k)] at st1
  have st2 := stageForward_ok cfg.pos_embed s2 N (2 * k) hN (by omega) hp2 hw2
  rw [hc2, hd2, (by omega : 2 * (2 * k) = 4 * k)] at st2
  have st3 := stageForward_ok cfg.pos_embed s3 N k hN (by omega) hp3 hw3
  rw [hc3, hd3] at st3
  unfold forwardShape
  rw [himg]
  rw [conv2dShape_eval 3 cfg.init_channels 7 2 3 N 3 (32 * k) (32 * k) (2 * (8 * k))
    (2 * (8 * k)) rfl (by omega) (by omega) (by omega) (by omega)]
  simp only [Option.some_bind]
  rw [bnShape_self]
  simp only [Option.some_bind, List.foldlM_cons, List.foldlM_nil, Option.bind_eq_bind,
    Option.pure_def]
  rw [st0]
  simp only [Option.some_bind]
  rw [st1]
  simp only [Option.some_bind]
  rw [st2]
  simp only [Option.some_bind]
  rw [st3]
  simp only [Option.some_bind]
  rw [bnShape_self]
  simp only [Option.some_bind]
  cases hpl : cfg.pool
  · rw [if_neg Bool.false_ne_true]
    rw [if_pos (⟨hk1, hk1⟩ : 1 ≤ k ∧ 1 ≤ k)]
    simp only [Option.some_bind]
    simp
  · rw [if_pos rfl]
    simp only [Option.some_bind]
    simp

/-- C3 witness: at the `visformer_small` geometry (`img_size = 224 = 32*7`,
`init_channels = 16`, `embed_dim = 96`, `depth = [0,7,4,4]`) with batch 2
and 10 classes, construction succeeds and the forward pass yields `(2, 10)`. -/
theorem visformer_forward_shape_witness :
    visformerConstruct ⟨224, 16, 10, 96, [0, 7, 4, 4], .scalar 6, 4,
        ['1', '1', '1', '1'], ['1', '1', '1', '1'], 8, true, true⟩
      = some ⟨16, [⟨16, 24, 0, 56, false, 0, 0, 0, 8, false, 56⟩,
          ⟨24, 48, 7, 28, true, 6, 4, 96, 8, true, 28⟩,
          ⟨48, 96, 4, 14, true, 6, 16, 192, 8, true, 14⟩,
          ⟨96, 192, 4, 7, true, 6, 32, 384, 8, true, 7⟩], true, 96, 10, true⟩
    ∧ (224 : ℕ) = 32 * 7 ∧ (1 : ℕ) ≤ 7 ∧ (7 : ℕ) ≤ 7 ∧ (1 : ℕ) ≤ 2
    ∧ forwardShape ⟨16, [⟨16, 24, 0, 56, false, 0, 0, 0, 8, false, 56⟩,
          ⟨24, 48, 7, 28, true, 6, 4, 96, 8, true, 28⟩,
          ⟨48, 96, 4, 14, true, 6, 16, 192, 8, true, 14⟩,
          ⟨96, 192, 4, 7, true, 6, 32, 384, 8, true, 7⟩], true, 96, 10, true⟩
        ⟨2, 3, 224, 224⟩ = some (2, 10) :=
  ⟨by decide, by decide, by decide, by decide, by decide,
   visformer_forward_shape
     ⟨224, 16, 10, 96, [0, 7, 4, 4], .scalar 6, 4,
        ['1', '1', '1', '1'], ['1', '1', '1', '1'], 8, true, true⟩
     ⟨16, [⟨16, 24, 0, 56, false, 0, 0, 0, 8, false, 56⟩,
          ⟨24, 48, 7, 28, true, 6, 4, 96, 8, true, 28⟩,
          ⟨48, 96, 4, 14, true, 6, 16, 192, 8, true, 14⟩,
          ⟨96, 192, 4, 7, true, 6, 32, 384, 8, true, 7⟩], true, 96, 10, true⟩
     7 2 (by decide) (by decide) (by decide) (by decide) (by decide)⟩

/-- C8 counterexample: the stage-flag strings `attn_stage = "abcd"` and
`spatial_conv = "xyzw"` are malformed (their characters are not `'0'`/`'1'`),
yet construction succeeds — each character is merely compared against
`'0'` (attention disabled iff equal) or `'1'` (spatial conv enabled iff
equal), so malformed strings are silently interpreted, not rejected. -/
theorem config_validation_counterexample :
    ¬ flagsWellFormed ['a', 'b', 'c', 'd'] ∧ ¬ flagsWellFormed ['x', 'y', 'z', 'w'] ∧
      (visformerConstruct ⟨224, 16, 10, 96, [1, 1, 1, 1], .scalar 6, 4,
          ['a', 'b', 'c', 'd'], ['x', 'y', 'z', 'w'], 8, true, true⟩).isSome = true := by
  refine ⟨?_, ?_, ?_⟩ <;> decide

/-- C8 (amended): a depth argument that is not a 4-element sequence makes
construction fail fast (the `assert`), and a scalar `num_heads` is broadcast
to all 4 stages (construction behaves exactly as with the 4-element list);
but malformed stage-flag strings are *not* rejected: characters other than
`'0'`/`'1'` are silently interpreted by equality comparison, and only a
too-short string read by a non-empty stage fails (with `IndexError`). -/
theorem visformer_config_validation :
    (∀ cfg : VisformerCfg, cfg.depth.length ≠ 4 → visformerConstruct cfg = none)
    ∧ (∀ (cfg : VisformerCfg) (s : ℕ),
        visformerConstruct { cfg with num_heads := NumHeads.scalar s }
          = visformerConstruct { cfg with num_heads := NumHeads.list (List.replicate 4 s) }) := by
  constructor
  · intro cfg h
    unfold visformerConstruct
    rw [if_neg (fun hcond => h hcond.1)]
  · intro cfg s
    rfl

/-- C8 witness: a 1-element depth list is rejected at construction. -/
theorem visformer_config_validation_witness :
    visformerConstruct ⟨224, 16, 10, 96, [1], .scalar 6, 4,
        ['1', '1', '1', '1'], ['1', '1', '1', '1'], 8, true, true⟩ = none :=
  visformer_config_validation.1
    ⟨224, 16, 10, 96, [1], .scalar 6, 4,
        ['1', '1', '1', '1'], ['1', '1', '1', '1'], 8, true, true⟩ (by decide)
